import Mathlib

/-
Shallow embedding of the lsm-unified-app repository (a Flask/Streamlit image
studio backed by a cloud asset store), covering:

  * src/client_onboarding.py : validate_client_name, sanitize_client_name
  * src/api_server.py        : the validation part of the check_client endpoint
  * src/src/cloudinary_utils.py :
       CloudinaryManager.upload_image
       CloudinaryManager.list_images_paginated
       CloudinaryManager.check_client_exists
       CloudinaryManager.create_client_folders
  * src/src/nano_banana_client.py : NanoBananaClient._extract_image_from_response

Machine-level conventions: Python strings are Lean Strings; Python dicts whose
key sets vary are structures with Option-typed fields (none = key absent);
Python exceptions are modelled with Except; the remote provider is modelled as
a function from requests to responses (reads) and is threaded explicitly where
an operation could mutate it.
-/

namespace LSM

/-! ### Character class of the client-name regex

The sources use the regex [a-zA-Z0-9-] (anchored as a full match) both to
validate client names and, complemented, to strip characters in the sanitizer.
ASCII codes: a-z = 97..122, A-Z = 65..90, 0-9 = 48..57, hyphen = 45. -/

def isClientChar (c : Char) : Bool :=
  (97 ≤ c.toNat && c.toNat ≤ 122) || (65 ≤ c.toNat && c.toNat ≤ 90) ||
    (48 ≤ c.toNat && c.toNat ≤ 57) || c.toNat = 45

/-- Python re.match with pattern carrying both anchors, over the class above.
In Python the dollar anchor also matches just before one trailing newline, so
that case is reproduced here. The plus requires a nonempty match. -/
def matchesClientRe (s : String) : Bool :=
  let l := s.data
  let l2 := if l.getLast? = some '\n' then l.dropLast else l
  !l2.isEmpty && l2.all isClientChar

/-- ASCII lowercasing of one character, as Python str.lower acts on the ASCII
range (the sanitizer applies it after stripping to [a-zA-Z0-9-], where Python
and ASCII lowercasing agree). -/
def lowerAscii (c : Char) : Char :=
  if 65 ≤ c.toNat && c.toNat ≤ 90 then Char.ofNat (c.toNat + 32) else c

/-- client_onboarding.sanitize_client_name: replace spaces with hyphens, strip
every character outside [a-zA-Z0-9-], lowercase. -/
def sanitize_client_name (s : String) : String :=
  let replaced := s.data.map (fun c => if c = ' ' then '-' else c)
  let stripped := replaced.filter isClientChar
  String.mk (stripped.map lowerAscii)

/-- client_onboarding.validate_client_name: returns (is_valid, error_message). -/
def validate_client_name (name : String) : Bool × Option String :=
  if name = "" then
    (false, some "Client name is required")
  else if name.length < 3 then
    (false, some "Client name must be at least 3 characters")
  else if name.length > 50 then
    (false, some "Client name must be 50 characters or less")
  else if !matchesClientRe name then
    (false, some "Client name can only contain letters, numbers, and hyphens")
  else
    (true, none)

/-- ASCII whitespace as recognized by Python str.strip (the Unicode-only
whitespace code points play no role for client names). -/
def isPySpace (c : Char) : Bool :=
  c = ' ' || c = '\t' || c = '\n' || c = '\x0d' || c = '\x0b' || c = '\x0c'

/-- Python str.strip with no argument: drop whitespace from both ends. -/
def pyStrip (s : String) : String :=
  String.mk (((s.data.dropWhile isPySpace).reverse.dropWhile isPySpace).reverse)

/-- The validation part of api_server.check_client: the posted client_name is
stripped, then checked against the regex first and the length rule second. -/
def api_check_client_valid (client_name : String) : Bool × Option String :=
  let n := pyStrip client_name
  if !matchesClientRe n then
    (false, some "Client name can only contain letters, numbers, and hyphens")
  else if n.length < 3 || n.length > 50 then
    (false, some "Client name must be between 3 and 50 characters")
  else
    (true, none)

/-! ### Provider model for folder queries -/

/-- One folder record in the provider's subfolders response (the source reads
its name field). -/
structure Folder where
  name : String
deriving Repr, DecidableEq

/-- Outcome of a provider API call: a value, the provider's NotFound
exception, or any other exception (carrying its message). -/
inductive ApiOutcome (α : Type) where
  | ok (v : α)
  | notFound
  | otherError (msg : String)
deriving Repr, DecidableEq

/-- Subfolders response: the folders list (result.get with default empty). -/
structure SubfoldersResponse where
  folders : List Folder
deriving Repr, DecidableEq

/-- The provider state visible to the folder operations: what the subfolders
query returns for each folder path. -/
structure ProviderState where
  subfoldersOf : String → ApiOutcome SubfoldersResponse

/-- Return dict of check_client_exists, with Option fields for keys that not
every branch includes. -/
structure CheckClientResult where
  success : Bool
  exists_ : Option Bool
  folder_path : Option String
  subfolders : Option (List String)
  error : Option String
deriving Repr, DecidableEq

/-- CloudinaryManager.check_client_exists: query subfolders of the client
folder; NotFound maps to success with exists false, any other exception to a
failure dict. -/
def check_client_exists (σ : ProviderState) (client_name : String) :
    CheckClientResult :=
  match σ.subfoldersOf client_name with
  | .ok result =>
      { success := true, exists_ := some true, folder_path := some client_name,
        subfolders := some (result.folders.map Folder.name), error := none }
  | .notFound =>
      { success := true, exists_ := some false, folder_path := some client_name,
        subfolders := none, error := none }
  | .otherError e =>
      { success := false, exists_ := none, folder_path := none,
        subfolders := none, error := some e }

/-- Return dict of create_client_folders. -/
structure CreateFoldersResult where
  success : Bool
  folders_created : Option (List String)
  folder_path : Option String
  message : Option String
  error : Option String
deriving Repr, DecidableEq

/-- CloudinaryManager.create_client_folders: validates the name against the
client regex and returns the static subfolder list; the body performs no
provider call at all, so the provider state passes through unchanged. -/
def create_client_folders (σ : ProviderState) (client_name : String) :
    ProviderState × CreateFoldersResult :=
  (σ,
    if !matchesClientRe client_name then
      { success := false, folders_created := none, folder_path := none,
        message := none, error := some "Invalid client name format" }
    else
      { success := true, folders_created := some ["input", "generated", "edited"],
        folder_path := some client_name,
        message := some ("Client \"" ++ client_name ++
          "\" is ready. Folders will be created automatically when you upload images."),
        error := none })

/-! ### Upload -/

/-- The three shapes upload_image accepts for image_data. A path string that
does not exist on disk falls through to the bytes branch in the source. -/
inductive ImageData where
  | filePath (path : String)
  | pilImage
  | rawBytes (bytes : List Nat)
deriving Repr, DecidableEq

/-- The parameters upload_image passes to the provider's upload call. -/
structure UploadRequest where
  folder : String
  public_id : String
  resource_type : String
  overwrite : Bool
deriving Repr, DecidableEq

/-- os.path.splitext, first component: split at the last dot of the name
unless every character before that dot is itself a dot. -/
def splitextRoot (s : String) : String :=
  let l := s.data
  match (l.reverse.findIdx? (· = '.')) with
  | none => s
  | some k =>
      let i := l.length - 1 - k
      if (l.take i).any (· ≠ '.') then String.mk (l.take i) else s

/-- CloudinaryManager.upload_image, up to the provider call: resolves the
filename (default image_ plus timestamp, custom names lose their extension),
resolves the client folder (argument wins over the instance default, a missing
folder is a validation failure before any provider call), and builds the
upload request. All three image_data branches of the source construct the
same request parameters, overwrite included. -/
def upload_image (timestamp : Nat) (image_data : ImageData)
    (folder_type : String) (filename : Option String)
    (client_folder : Option String) (instance_client_folder : Option String) :
    Except String UploadRequest :=
  let fname :=
    match filename with
    | none => "image_" ++ toString timestamp
    | some f => splitextRoot f
  let folder_name :=
    match client_folder with
    | some f => some f
    | none => instance_client_folder
  match folder_name with
  | none =>
      .error ("client_folder must be provided either in the request or via " ++
        "CLIENT_FOLDER_NAME environment variable")
  | some fn =>
      let req : UploadRequest :=
        { folder := fn ++ "/" ++ folder_type,
          public_id := fname ++ "_" ++ toString timestamp,
          resource_type := "image",
          overwrite := true }
      match image_data with
      | .filePath _ => .ok req
      | .pilImage => .ok req
      | .rawBytes _ => .ok req

/-! ### Dates and the paginated listing -/

/-- A calendar date as produced by datetime.date. -/
structure Date where
  year : Nat
  month : Nat
  day : Nat
deriving Repr, DecidableEq

/-- Date strict comparison (datetime.date orders lexicographically). -/
def Date.ltb (a b : Date) : Bool :=
  a.year < b.year || (a.year = b.year &&
    (a.month < b.month || (a.month = b.month && a.day < b.day)))

/-- Date non-strict comparison. -/
def Date.leb (a b : Date) : Bool :=
  a.year < b.year || (a.year = b.year &&
    (a.month < b.month || (a.month = b.month && a.day ≤ b.day)))

/-- Numeric value of a fixed-width digit run, none on a wrong width or a
non-digit. -/
def parseDigits (width : Nat) (l : List Char) : Option Nat :=
  if l.length = width && l.all (fun c => 48 ≤ c.toNat && c.toNat ≤ 57) then
    some (l.foldl (fun n c => n * 10 + (c.toNat - 48)) 0)
  else
    none

/-- The date part of datetime.fromisoformat followed by .date(): a strict
YYYY-MM-DD head, optionally followed by a time component introduced by T or a
space. Validation of the time-of-day component itself is elided: on inputs
whose time part is malformed this model succeeds where CPython raises, which
only enlarges the set of inputs the theorems below quantify over. -/
def parseIsoDate (s : String) : Option Date :=
  let l := s.data
  match parseDigits 4 (l.take 4), parseDigits 2 ((l.drop 5).take 2),
      parseDigits 2 ((l.drop 8).take 2) with
  | some y, some m, some d =>
      if l.get? 4 = some '-' && l.get? 7 = some '-' &&
          (match l.get? 10 with
           | none => decide (l.length = 10)
           | some c => c = 'T' || c = ' ') then
        some ⟨y, m, d⟩
      else none
  | _, _, _ => none

/-- Python str.replace of a single character Z by the fixed offset text
+00:00, applied to every occurrence (the source rewrites the trailing Zulu
marker before parsing). -/
def pyReplaceZ (s : String) : String :=
  String.mk (s.data.foldr
    (fun c acc =>
      if c = 'Z' then '+' :: '0' :: '0' :: ':' :: '0' :: '0' :: acc
      else c :: acc) [])

/-- Python truthiness of an Optional string: None and the empty string are
falsy. -/
def strTruthy (o : Option String) : Bool :=
  !(o.getD "").isEmpty

/-- One asset record of the provider's resources response. created_at is
Option-typed because the source reads it with a defaulted get. -/
structure Asset where
  public_id : String
  created_at : Option String
deriving Repr, DecidableEq

/-- The provider's resources response: the asset page, the unfiltered total
count, and the pagination cursor (none when the response has no next_cursor
key). -/
structure ResourcesResponse where
  resources : List Asset
  total_count : Nat
  next_cursor : Option String
deriving Repr, DecidableEq

/-- The parameters list_images_paginated passes to the provider's resources
call (the constant parameters of the source are kept). -/
structure ResourcesRequest where
  pref : String
  max_results : Nat
  next_cursor : Option String
  resource_type : String
  context : Bool
  tags : Bool
deriving Repr, DecidableEq

/-- The start-date test of the filter loop: skip the asset when its date is
strictly before the start bound; a falsy start_date imposes nothing. A bound
that fails to parse raises, which propagates as an error. -/
def checkStart (img_date : Date) (start_date : Option String) :
    Except String Bool :=
  if strTruthy start_date then
    match parseIsoDate (start_date.getD "") with
    | none => .error ("Invalid isoformat string: " ++ start_date.getD "")
    | some start => .ok (!img_date.ltb start)
  else .ok true

/-- The end-date test of the filter loop: skip the asset when its date is
strictly after the end bound. -/
def checkEnd (img_date : Date) (end_date : Option String) :
    Except String Bool :=
  if strTruthy end_date then
    match parseIsoDate (end_date.getD "") with
    | none => .error ("Invalid isoformat string: " ++ end_date.getD "")
    | some e => .ok (!e.ltb img_date)
  else .ok true

/-- The body of the filter loop for one asset: a missing or empty created_at
is skipped outright; otherwise the asset date is parsed (the source first
rewrites a Z suffix to a numeric offset) and both bounds are tested, the end
bound only when the start bound did not already skip the asset. -/
def keepAsset (img : Asset) (start_date end_date : Option String) :
    Except String Bool :=
  let created_at := img.created_at.getD ""
  if created_at.isEmpty then .ok false
  else
    match parseIsoDate (pyReplaceZ created_at) with
    | none => .error ("Invalid isoformat string: " ++ created_at)
    | some img_date =>
        match checkStart img_date start_date with
        | .error e => .error e
        | .ok false => .ok false
        | .ok true => checkEnd img_date end_date

/-- The filter loop of list_images_paginated, in page order. -/
def filterImagesByDate (images : List Asset)
    (start_date end_date : Option String) : Except String (List Asset) :=
  match images with
  | [] => .ok []
  | img :: rest =>
      match keepAsset img start_date end_date with
      | .error e => .error e
      | .ok keep =>
          match filterImagesByDate rest start_date end_date with
          | .error e => .error e
          | .ok tail => .ok (if keep then img :: tail else tail)

/-- The success dict of list_images_paginated. -/
structure PageResult where
  images : List Asset
  total_count : Nat
  next_cursor : Option String
  has_more : Bool
deriving Repr, DecidableEq

/-- Overall result of list_images_paginated. -/
inductive ListImagesResult where
  | ok (page : PageResult)
  | err (msg : String)
deriving Repr, DecidableEq

/-- CloudinaryManager.list_images_paginated: build the prefix path (the bare
client folder when folder_type is all), issue the resources request (the
cursor parameter is included only when truthy), filter by date client-side
when at least one bound is truthy, and assemble the page. has_more is the
presence of the next_cursor key in the provider response; total_count is the
provider's count, taken before filtering. -/
def list_images_paginated
    (provider : ResourcesRequest → Except String ResourcesResponse)
    (client_folder : String) (folder_type : String) (max_results : Nat)
    (next_cursor : Option String) (start_date end_date : Option String) :
    ListImagesResult :=
  let folder_path :=
    if folder_type = "all" then client_folder
    else client_folder ++ "/" ++ folder_type
  let req : ResourcesRequest :=
    { pref := folder_path, max_results := max_results,
      next_cursor := if strTruthy next_cursor then next_cursor else none,
      resource_type := "image", context := true, tags := true }
  match provider req with
  | .error e => .err e
  | .ok result =>
      let filtered :=
        if strTruthy start_date || strTruthy end_date then
          filterImagesByDate result.resources start_date end_date
        else
          .ok result.resources
      match filtered with
      | .error e => .err e
      | .ok images =>
          .ok { images := images,
                total_count := result.total_count,
                next_cursor := result.next_cursor,
                has_more := result.next_cursor.isSome }

/-! ### Model-response image extraction -/

/-- Inline binary image data of one response part. -/
structure InlineData where
  data : List Nat
deriving Repr, DecidableEq

/-- One content part of a model response, with the two fields the extractor
reads. In the wire format these are branches of a union, so a well-formed part
populates at most one of them. -/
structure Part where
  text : Option String
  inline_data : Option InlineData
deriving Repr, DecidableEq

/-- NanoBananaClient._extract_image_from_response: walk the parts in order;
a part with text is logged (first component) and skipped; the first part with
inline data is returned; reaching the end raises ValueError. -/
def extract_image_from_response (parts : List Part) :
    List String × Except String InlineData :=
  match parts with
  | [] => ([], .error "No image found in the API response")
  | p :: rest =>
      match p.text with
      | some t =>
          let r := extract_image_from_response rest
          (t :: r.1, r.2)
      | none =>
          match p.inline_data with
          | some d => ([], .ok d)
          | none => extract_image_from_response rest

/-! ### Character-level lemmas for the sanitizer -/

theorem isClientChar_iff (c : Char) :
    isClientChar c = true ↔
      (97 ≤ c.toNat ∧ c.toNat ≤ 122) ∨ (65 ≤ c.toNat ∧ c.toNat ≤ 90) ∨
        (48 ≤ c.toNat ∧ c.toNat ≤ 57) ∨ c.toNat = 45 := by
  simp only [isClientChar, Bool.or_eq_true, Bool.and_eq_true, decide_eq_true_eq]
  tauto

theorem toNat_ofNat_add32 (n : Nat) (h1 : 65 ≤ n) (h2 : n ≤ 90) :
    (Char.ofNat (n + 32)).toNat = n + 32 := by
  have hv : Nat.isValidChar (n + 32) := Or.inl (by omega)
  simp [Char.ofNat, hv, Char.toNat, Char.ofNatAux, UInt32.toNat,
    BitVec.toNat_ofNatLt]

theorem lowerAscii_toNat_of_upper {c : Char} (h1 : 65 ≤ c.toNat)
    (h2 : c.toNat ≤ 90) : (lowerAscii c).toNat = c.toNat + 32 := by
  unfold lowerAscii
  rw [if_pos (by simp [Bool.and_eq_true, decide_eq_true_eq]; omega)]
  exact toNat_ofNat_add32 c.toNat h1 h2

theorem lowerAscii_of_not_upper {c : Char}
    (h : ¬(65 ≤ c.toNat ∧ c.toNat ≤ 90)) : lowerAscii c = c := by
  unfold lowerAscii
  rw [if_neg (by simp [Bool.and_eq_true, decide_eq_true_eq]; omega)]

theorem isClientChar_lowerAscii {c : Char} (h : isClientChar c = true) :
    isClientChar (lowerAscii c) = true := by
  rw [isClientChar_iff] at h ⊢
  by_cases hu : 65 ≤ c.toNat ∧ c.toNat ≤ 90
  · rw [lowerAscii_toNat_of_upper hu.1 hu.2]; omega
  · rw [lowerAscii_of_not_upper hu]; omega

theorem lowerAscii_idem (c : Char) :
    lowerAscii (lowerAscii c) = lowerAscii c := by
  by_cases hu : 65 ≤ c.toNat ∧ c.toNat ≤ 90
  · have := lowerAscii_toNat_of_upper hu.1 hu.2
    exact lowerAscii_of_not_upper (by omega)
  · rw [lowerAscii_of_not_upper hu]; exact lowerAscii_of_not_upper hu

theorem ne_space_of_isClientChar {c : Char} (h : isClientChar c = true) :
    c ≠ ' ' := by
  rw [isClientChar_iff] at h
  intro he
  subst he
  exact absurd h (by decide)

theorem mem_sanitize {s : String} {c : Char}
    (hc : c ∈ (sanitize_client_name s).data) : isClientChar c = true := by
  unfold sanitize_client_name at hc
  simp only [List.mem_map] at hc
  obtain ⟨c0, hc0, rfl⟩ := hc
  exact isClientChar_lowerAscii (List.mem_filter.mp hc0).2

/-- C7 helper: a character produced by the sanitizer is fixed by every pass of
the sanitizer's pipeline. -/
theorem sanitize_fixes_own_output (s : String) :
    sanitize_client_name (sanitize_client_name s) = sanitize_client_name s := by
  have hmem : ∀ c ∈ (sanitize_client_name s).data, isClientChar c = true :=
    fun c hc => mem_sanitize hc
  have hlow : ∀ c ∈ (sanitize_client_name s).data, lowerAscii c = c := by
    intro c hc
    unfold sanitize_client_name at hc
    simp only [List.mem_map] at hc
    obtain ⟨c0, _, rfl⟩ := hc
    exact lowerAscii_idem c0
  conv_lhs => rw [sanitize_client_name]
  have h1 : (sanitize_client_name s).data.map
      (fun c => if c = ' ' then '-' else c) = (sanitize_client_name s).data := by
    rw [show (sanitize_client_name s).data =
        (sanitize_client_name s).data.map id from (List.map_id _).symm]
    rw [List.map_map]
    exact List.map_congr_left fun c hc => by
      simp [ne_space_of_isClientChar (hmem c hc)]
  rw [h1, List.filter_eq_self.mpr hmem]
  rw [show (sanitize_client_name s).data.map lowerAscii =
      (sanitize_client_name s).data.map id from List.map_congr_left hlow]
  rw [List.map_id]

/-- C7: the sanitizer emits only characters of the class [A-Za-z0-9-], and
running it twice equals running it once. -/
theorem sanitize_class_and_idempotent (s : String) :
    (∀ c ∈ (sanitize_client_name s).data, isClientChar c = true) ∧
      sanitize_client_name (sanitize_client_name s) = sanitize_client_name s :=
  ⟨fun _ hc => mem_sanitize hc, sanitize_fixes_own_output s⟩

/-- C7 witness: the theorem instantiated at the concrete string "A b", whose
sanitized form is "a-b". -/
theorem sanitize_class_and_idempotent_witness :
    isClientChar 'a' = true ∧
      sanitize_client_name (sanitize_client_name "A b") =
        sanitize_client_name "A b" :=
  ⟨(sanitize_class_and_idempotent "A b").1 'a' (by decide),
    (sanitize_class_and_idempotent "A b").2⟩

/-- C8: the UI validator rejects the two-character name, accepts the
three-character name, and the sanitizer maps "abc def" to "abc-def"; the HTTP
validator agrees on both names. -/
theorem client_name_length_scenarios :
    (validate_client_name "ab").1 = false ∧
      (validate_client_name "abc").1 = true ∧
      sanitize_client_name "abc def" = "abc-def" ∧
      (api_check_client_valid "ab").1 = false ∧
      (api_check_client_valid "abc").1 = true := by
  refine ⟨by decide, by decide, ?_, by decide, by decide⟩
  decide

/-! ### Date and filter lemmas -/

theorem Date.leb_eq_not_ltb (a b : Date) : a.leb b = !b.ltb a := by
  rw [Bool.eq_iff_iff]
  simp only [Date.leb, Date.ltb, Bool.or_eq_true, Bool.and_eq_true,
    Bool.not_eq_true', Bool.or_eq_false_iff, Bool.and_eq_false_iff,
    decide_eq_true_eq, decide_eq_false_iff_not]
  omega

theorem checkStart_true {d : Date} {sd : Option String}
    (h : checkStart d sd = .ok true) (hs : strTruthy sd = true) :
    ∃ s, parseIsoDate (sd.getD "") = some s ∧ s.leb d = true := by
  unfold checkStart at h
  rw [if_pos hs] at h
  cases hp : parseIsoDate (sd.getD "") with
  | none => rw [hp] at h; exact absurd h (by simp)
  | some s =>
      rw [hp] at h
      refine ⟨s, rfl, ?_⟩
      rw [Date.leb_eq_not_ltb]
      simpa using h

theorem checkEnd_true {d : Date} {ed : Option String}
    (h : checkEnd d ed = .ok true) (he : strTruthy ed = true) :
    ∃ e, parseIsoDate (ed.getD "") = some e ∧ d.leb e = true := by
  unfold checkEnd at h
  rw [if_pos he] at h
  cases hp : parseIsoDate (ed.getD "") with
  | none => rw [hp] at h; exact absurd h (by simp)
  | some e =>
      rw [hp] at h
      refine ⟨e, rfl, ?_⟩
      rw [Date.leb_eq_not_ltb]
      simpa using h

/-- An asset the filter loop keeps has a nonempty created_at that parses to a
date lying within whichever bounds are active. -/
theorem keepAsset_true {a : Asset} {sd ed : Option String}
    (h : keepAsset a sd ed = .ok true) :
    (a.created_at.getD "").isEmpty = false ∧
      ∃ d, parseIsoDate (pyReplaceZ (a.created_at.getD "")) = some d ∧
        (strTruthy sd = true →
          ∃ s, parseIsoDate (sd.getD "") = some s ∧ s.leb d = true) ∧
        (strTruthy ed = true →
          ∃ e, parseIsoDate (ed.getD "") = some e ∧ d.leb e = true) := by
  unfold keepAsset at h
  dsimp only at h
  split at h
  · exact absurd h (by simp)
  next hemp =>
    refine ⟨by simpa using hemp, ?_⟩
    split at h
    next hp => exact absurd h (by simp)
    next d hp =>
      refine ⟨d, hp, ?_, ?_⟩
      · intro hs
        split at h
        next e hcs => exact absurd h (by simp)
        next hcs => exact absurd h (by simp)
        next hcs => exact checkStart_true hcs hs
      · intro he
        split at h
        next e hcs => exact absurd h (by simp)
        next hcs => exact absurd h (by simp)
        next hcs => exact checkEnd_true h he

/-- An asset with a missing or empty created_at is dropped by the filter
loop's body. -/
theorem keepAsset_empty_created_at {a : Asset} {sd ed : Option String}
    (h : (a.created_at.getD "").isEmpty = true) :
    keepAsset a sd ed = .ok false := by
  unfold keepAsset
  rw [if_pos h]

/-- Membership in a successful filter result comes from membership in the page
together with a kept loop body. -/
theorem mem_filterImagesByDate {l out : List Asset} {sd ed : Option String}
    (h : filterImagesByDate l sd ed = .ok out) {a : Asset} (ha : a ∈ out) :
    a ∈ l ∧ keepAsset a sd ed = .ok true := by
  induction l generalizing out with
  | nil =>
      unfold filterImagesByDate at h
      cases h
      exact absurd ha (by simp)
  | cons img rest ih =>
      unfold filterImagesByDate at h
      cases hk : keepAsset img sd ed with
      | error e => rw [hk] at h; exact absurd h (by simp)
      | ok keep =>
          rw [hk] at h
          cases hr : filterImagesByDate rest sd ed with
          | error e => rw [hr] at h; exact absurd h (by simp)
          | ok tail =>
              rw [hr] at h
              cases h
              cases keep with
              | true =>
                  rcases List.mem_cons.mp ha with rfl | hmem
                  · exact ⟨List.mem_cons_self _ _, hk⟩
                  · have := ih hr hmem
                    exact ⟨List.mem_cons_of_mem _ this.1, this.2⟩
              | false =>
                  have := ih hr ha
                  exact ⟨List.mem_cons_of_mem _ this.1, this.2⟩

/-- Structural description of a successful list_images_paginated call against
a fixed provider response: the count and cursor fields copy the response, and
the images are the response page filtered exactly when a bound is active. -/
theorem list_ok_spec {resp : ResourcesResponse} {cf ft : String} {mr : Nat}
    {nc sd ed : Option String} {page : PageResult}
    (h : list_images_paginated (fun _ => .ok resp) cf ft mr nc sd ed =
      .ok page) :
    page.total_count = resp.total_count ∧
      page.next_cursor = resp.next_cursor ∧
      page.has_more = resp.next_cursor.isSome ∧
      ((strTruthy sd || strTruthy ed) = true →
        filterImagesByDate resp.resources sd ed = .ok page.images) ∧
      ((strTruthy sd || strTruthy ed) = false →
        page.images = resp.resources) := by
  unfold list_images_paginated at h
  simp only at h
  by_cases hf : (strTruthy sd || strTruthy ed) = true
  · rw [if_pos hf] at h
    cases hfil : filterImagesByDate resp.resources sd ed with
    | error e => rw [hfil] at h; exact absurd h (by simp)
    | ok images =>
        rw [hfil] at h
        cases h
        exact ⟨rfl, rfl, rfl, fun _ => rfl,
          fun hc => absurd hf (by simp [hc])⟩
  · rw [if_neg hf] at h
    cases h
    exact ⟨rfl, rfl, rfl, fun hc => absurd hc hf, fun _ => rfl⟩

/-! ### C1: overwrite flag of upload requests -/

/-- C1 counterexample: the claim says every upload request has overwriting
disabled, but already the plain bytes upload with timestamp 100 into
acme/generated carries overwrite = true. -/
theorem upload_overwrite_counterexample :
    (upload_image 100 (ImageData.rawBytes []) "generated" none (some "acme")
        none).map UploadRequest.overwrite = Except.ok true := by
  rfl

/-- C1 (amended): every upload request the manager issues has overwriting
enabled, and collision avoidance relies on the timestamp suffix appended to
the resolved filename, so an upload repeating a filename within the same
second targets the same public_id and would replace the earlier asset. -/
theorem upload_overwrite_enabled (ts : Nat) (data : ImageData)
    (ft : String) (fn : Option String) (cf icf : Option String)
    (req : UploadRequest)
    (h : upload_image ts data ft fn cf icf = .ok req) :
    req.overwrite = true ∧
      (fn = none → req.public_id = "image_" ++ toString ts ++ "_" ++ toString ts) ∧
      (∀ f, fn = some f → req.public_id = splitextRoot f ++ "_" ++ toString ts) := by
  unfold upload_image at h
  dsimp only at h
  rcases cf with _ | f
  · rcases icf with _ | g
    · exact absurd h (by simp)
    · rcases fn with _ | f0 <;> rcases data with p | _ | b <;> cases h <;>
        exact ⟨rfl,
          by intro hn; first | rfl | simp at hn,
          by intro f hf; first | (cases hf; rfl) | simp at hf⟩
  · rcases fn with _ | f0 <;> rcases data with p | _ | b <;> cases h <;>
      exact ⟨rfl,
        by intro hn; first | rfl | simp at hn,
        by intro f hf; first | (cases hf; rfl) | simp at hf⟩

/-- C1 witness: the amended theorem at timestamp 5, a named file pic.png and
client folder acme. -/
theorem upload_overwrite_enabled_witness :
    upload_image 5 (ImageData.rawBytes []) "generated" (some "pic.png")
        (some "acme") none =
      .ok ⟨"acme/generated", "pic_5", "image", true⟩ ∧
      (⟨"acme/generated", "pic_5", "image", true⟩ : UploadRequest).overwrite = true :=
  ⟨by rfl,
    (upload_overwrite_enabled 5 (ImageData.rawBytes []) "generated"
      (some "pic.png") (some "acme") none _ (by rfl)).1⟩

/-! ### C2: has_more reflects the provider's cursor -/

/-- C2: on every successful page the has_more flag equals the presence of the
next_cursor key in the provider's response, whatever date filter was applied;
and a page whose filtered images list is empty can still carry has_more =
true. -/
theorem has_more_reflects_provider :
    (∀ (resp : ResourcesResponse) (cf ft : String) (mr : Nat)
        (nc sd ed : Option String) (page : PageResult),
      list_images_paginated (fun _ => .ok resp) cf ft mr nc sd ed = .ok page →
        page.has_more = resp.next_cursor.isSome) ∧
      (∃ page : PageResult,
        list_images_paginated
            (fun _ => .ok ⟨[⟨"a", some "2020-01-01T00:00:00Z"⟩], 1, some "cur"⟩)
            "c" "all" 10 none (some "2024-01-01") none = .ok page ∧
          page.images = [] ∧ page.has_more = true) := by
  constructor
  · intro resp cf ft mr nc sd ed page h
    exact (list_ok_spec h).2.2.1
  · exact ⟨⟨[], 1, some "cur", true⟩, by rfl, rfl, rfl⟩

/-- C2 witness: the theorem applied to a response whose cursor is present
while the date filter empties the page. -/
theorem has_more_reflects_provider_witness :
    list_images_paginated
        (fun _ => .ok ⟨[⟨"a", some "2020-01-01T00:00:00Z"⟩], 1, some "cur"⟩)
        "c" "all" 10 none (some "2024-01-01") none =
      .ok ⟨[], 1, some "cur", true⟩ ∧
      (⟨[], 1, some "cur", true⟩ : PageResult).has_more =
        (some "cur" : Option String).isSome :=
  ⟨by rfl,
    has_more_reflects_provider.1 ⟨[⟨"a", some "2020-01-01T00:00:00Z"⟩], 1, some "cur"⟩
      "c" "all" 10 none (some "2024-01-01") none ⟨[], 1, some "cur", true⟩ (by rfl)⟩

/-! ### C3: the date filter bounds every returned image -/

/-- C3: when a date bound is active, every image of a successful page has a
created_at that parses to a date d with start ≤ d for a given start bound and
d ≤ end for a given end bound; a missing bound imposes nothing on its side,
and the filter acts on the already-fetched provider page. -/
theorem date_filter_bounds (resp : ResourcesResponse) (cf ft : String)
    (mr : Nat) (nc sd ed : Option String) (page : PageResult) (img : Asset)
    (h : list_images_paginated (fun _ => .ok resp) cf ft mr nc sd ed = .ok page)
    (hi : img ∈ page.images)
    (hf : (strTruthy sd || strTruthy ed) = true) :
    img ∈ resp.resources ∧
      ∃ d, parseIsoDate (pyReplaceZ (img.created_at.getD "")) = some d ∧
        (strTruthy sd = true →
          ∃ s, parseIsoDate (sd.getD "") = some s ∧ s.leb d = true) ∧
        (strTruthy ed = true →
          ∃ e, parseIsoDate (ed.getD "") = some e ∧ d.leb e = true) := by
  have hfil := ((list_ok_spec h).2.2.2.1) hf
  have hmem := mem_filterImagesByDate hfil hi
  exact ⟨hmem.1, (keepAsset_true hmem.2).2⟩

/-- C3 witness: the theorem applied to a one-asset page inside the range
2024-01-01 .. 2024-12-31. -/
theorem date_filter_bounds_witness :
    list_images_paginated
        (fun _ => .ok ⟨[⟨"b", some "2024-06-01T00:00:00Z"⟩], 1, none⟩)
        "c" "all" 10 none (some "2024-01-01") (some "2024-12-31") =
      .ok ⟨[⟨"b", some "2024-06-01T00:00:00Z"⟩], 1, none, false⟩ ∧
      ((⟨"b", some "2024-06-01T00:00:00Z"⟩ : Asset) ∈
          ([⟨"b", some "2024-06-01T00:00:00Z"⟩] : List Asset) ∧
        ∃ d, parseIsoDate
            (pyReplaceZ ((⟨"b", some "2024-06-01T00:00:00Z"⟩ : Asset).created_at.getD
              "")) = some d ∧
          (strTruthy (some "2024-01-01") = true →
            ∃ s, parseIsoDate ((some "2024-01-01" : Option String).getD "") =
              some s ∧ s.leb d = true) ∧
          (strTruthy (some "2024-12-31") = true →
            ∃ e, parseIsoDate ((some "2024-12-31" : Option String).getD "") =
              some e ∧ d.leb e = true)) :=
  ⟨by rfl,
    date_filter_bounds ⟨[⟨"b", some "2024-06-01T00:00:00Z"⟩], 1, none⟩
      "c" "all" 10 none (some "2024-01-01") (some "2024-12-31")
      ⟨[⟨"b", some "2024-06-01T00:00:00Z"⟩], 1, none, false⟩
      ⟨"b", some "2024-06-01T00:00:00Z"⟩ (by rfl) (by simp) (by rfl)⟩

/-! ### C4: create_client_folders mutates nothing -/

/-- C4: create_client_folders leaves the provider state untouched and, for a
name passing the format check, merely declares the static folder list; hence
an existence check before and after it gives the same answer, and on a
provider with no trace of the client both checks still report exists = false
even though the creation call succeeded. -/
theorem create_client_folders_pure (σ : ProviderState) (name : String) :
    (create_client_folders σ name).1 = σ ∧
      (matchesClientRe name = true →
        (create_client_folders σ name).2 =
          { success := true,
            folders_created := some ["input", "generated", "edited"],
            folder_path := some name,
            message := some ("Client \"" ++ name ++
              "\" is ready. Folders will be created automatically when you upload images."),
            error := none }) ∧
      check_client_exists (create_client_folders σ name).1 name =
        check_client_exists σ name ∧
      ((check_client_exists ⟨fun _ => .notFound⟩ "acme").exists_ = some false ∧
        ((create_client_folders ⟨fun _ => .notFound⟩ "acme").2).success = true ∧
        (check_client_exists (create_client_folders ⟨fun _ => .notFound⟩ "acme").1
            "acme").exists_ = some false) := by
  refine ⟨rfl, ?_, rfl, rfl, rfl, rfl⟩
  intro hv
  simp [create_client_folders, hv]

/-- C4 witness: the theorem applied to the empty provider and the valid name
acme. -/
theorem create_client_folders_pure_witness :
    (create_client_folders ⟨fun _ => .notFound⟩ "acme").2 =
      { success := true,
        folders_created := some ["input", "generated", "edited"],
        folder_path := some "acme",
        message := some ("Client \"" ++ "acme" ++
          "\" is ready. Folders will be created automatically when you upload images."),
        error := none } :=
  (create_client_folders_pure ⟨fun _ => .notFound⟩ "acme").2.1 (by decide)

/-! ### C5: error mapping of check_client_exists -/

/-- C5: the provider's not-found answer maps to a success dict with exists =
false and the folder path, any other provider error maps to a failure dict
carrying the message, and a successful subfolder query maps to exists = true
with the subfolder names. -/
theorem check_client_error_mapping (σ : ProviderState) (name : String) :
    (σ.subfoldersOf name = .notFound →
      check_client_exists σ name =
        { success := true, exists_ := some false, folder_path := some name,
          subfolders := none, error := none }) ∧
      (∀ msg, σ.subfoldersOf name = .otherError msg →
        check_client_exists σ name =
          { success := false, exists_ := none, folder_path := none,
            subfolders := none, error := some msg }) ∧
      (∀ resp, σ.subfoldersOf name = .ok resp →
        check_client_exists σ name =
          { success := true, exists_ := some true, folder_path := some name,
            subfolders := some (resp.folders.map Folder.name), error := none }) := by
  refine ⟨?_, ?_, ?_⟩
  · intro h; unfold check_client_exists; rw [h]
  · intro msg h; unfold check_client_exists; rw [h]
  · intro resp h; unfold check_client_exists; rw [h]

/-- C5 witness: the not-found mapping on a provider that knows no folder. -/
theorem check_client_error_mapping_witness :
    check_client_exists ⟨fun _ => .notFound⟩ "acme" =
      { success := true, exists_ := some false, folder_path := some "acme",
        subfolders := none, error := none } :=
  (check_client_error_mapping ⟨fun _ => .notFound⟩ "acme").1 rfl

/-! ### C6: extraction returns the first inline image -/

/-- C6: over well-formed parts (each carrying text or inline data, not both),
the extractor returns the inline data of the first part that has any, logging
but never returning the text parts before it; when no part carries inline
data it fails with the no-image error; and on the two-part text-then-image
response it returns exactly the image while logging the text. -/
theorem extract_first_inline_image (parts : List Part)
    (hwf : ∀ p ∈ parts, p.text = none ∨ p.inline_data = none) :
    (∀ p d, parts.find? (fun q => q.inline_data.isSome) = some p →
      p.inline_data = some d →
        (extract_image_from_response parts).2 = .ok d) ∧
      (parts.find? (fun q => q.inline_data.isSome) = none →
        (extract_image_from_response parts).2 =
          .error "No image found in the API response") ∧
      extract_image_from_response
          [⟨some "t", none⟩, ⟨none, some ⟨[1, 2, 3]⟩⟩] =
        (["t"], .ok ⟨[1, 2, 3]⟩) := by
  refine ⟨?_, ?_, by rfl⟩
  · intro p d hfind hd
    induction parts with
    | nil => simp at hfind
    | cons q rest ih =>
        rcases hq : q.inline_data with _ | d0
        · rw [List.find?_cons_of_neg _ (by simp [hq])] at hfind
          have hrec := ih (fun r hr => hwf r (List.mem_cons_of_mem _ hr)) hfind
          unfold extract_image_from_response
          rcases ht : q.text with _ | t
          · rw [hq]; exact hrec
          · exact hrec
        · rw [List.find?_cons_of_pos _ (by simp [hq])] at hfind
          injection hfind with hpq
          subst hpq
          have ht : q.text = none := by
            rcases hwf q (List.mem_cons_self _ _) with h | h
            · exact h
            · rw [h] at hq; exact absurd hq (by simp)
          rw [hq] at hd
          injection hd with hdd
          subst hdd
          unfold extract_image_from_response
          rw [ht, hq]
  · intro hfind
    induction parts with
    | nil => rfl
    | cons q rest ih =>
        rcases hq : q.inline_data with _ | d0
        · rw [List.find?_cons_of_neg _ (by simp [hq])] at hfind
          have hrec := ih (fun r hr => hwf r (List.mem_cons_of_mem _ hr)) hfind
          unfold extract_image_from_response
          rcases ht : q.text with _ | t
          · rw [hq]; exact hrec
          · exact hrec
        · rw [List.find?_cons_of_pos _ (by simp [hq])] at hfind
          exact absurd hfind (by simp)

/-- C6 witness: the theorem applied to the text-then-image response. -/
theorem extract_first_inline_image_witness :
    (extract_image_from_response
        [⟨some "t", none⟩, ⟨none, some ⟨[9]⟩⟩]).2 = .ok ⟨[9]⟩ :=
  (extract_first_inline_image [⟨some "t", none⟩, ⟨none, some ⟨[9]⟩⟩]
      (by decide)).1 ⟨none, some ⟨[9]⟩⟩ ⟨[9]⟩ (by rfl) (by rfl)

/-! ### C9: assets without created_at under an active filter -/

/-- C9: with a date bound active, an asset whose created_at is missing or
empty never appears in the returned page, although no bound would reject it;
with no bound active the page is returned unfiltered, such assets included. -/
theorem missing_created_at_excluded (resp : ResourcesResponse) (cf ft : String)
    (mr : Nat) (nc sd ed : Option String) (page : PageResult) (img : Asset)
    (h : list_images_paginated (fun _ => .ok resp) cf ft mr nc sd ed = .ok page) :
    ((strTruthy sd || strTruthy ed) = true →
      (img.created_at.getD "").isEmpty = true → img ∉ page.images) ∧
      ((strTruthy sd || strTruthy ed) = false → page.images = resp.resources) := by
  constructor
  · intro hf he hi
    have hfil := ((list_ok_spec h).2.2.2.1) hf
    have hkeep := (mem_filterImagesByDate hfil hi).2
    rw [keepAsset_empty_created_at he] at hkeep
    exact absurd hkeep (by simp)
  · exact (list_ok_spec h).2.2.2.2

/-- C9 witness: a cursorless one-asset page with no created_at, emptied by a
start bound; and the same response returned whole without bounds. -/
theorem missing_created_at_excluded_witness :
    list_images_paginated (fun _ => .ok ⟨[⟨"x", none⟩], 1, none⟩)
        "c" "all" 10 none (some "2024-01-01") none =
      .ok ⟨[], 1, none, false⟩ ∧
      (⟨"x", none⟩ : Asset) ∉ (⟨[], 1, none, false⟩ : PageResult).images :=
  ⟨by rfl,
    (missing_created_at_excluded ⟨[⟨"x", none⟩], 1, none⟩ "c" "all" 10 none
        (some "2024-01-01") none ⟨[], 1, none, false⟩ ⟨"x", none⟩ (by rfl)).1
      (by rfl) (by rfl)⟩

/-! ### C10: total_count is the provider's unfiltered count -/

/-- C10: the page's total_count always copies the provider's count for the
prefix query, and since the date filter can drop fetched assets without
recomputing it, total_count can strictly exceed the number of returned
images. -/
theorem total_count_unfiltered :
    (∀ (resp : ResourcesResponse) (cf ft : String) (mr : Nat)
        (nc sd ed : Option String) (page : PageResult),
      list_images_paginated (fun _ => .ok resp) cf ft mr nc sd ed = .ok page →
        page.total_count = resp.total_count) ∧
      (∃ page : PageResult,
        list_images_paginated
            (fun _ => .ok ⟨[⟨"a", some "2020-01-01T00:00:00Z"⟩,
              ⟨"b", some "2024-06-01T00:00:00Z"⟩], 2, none⟩)
            "c" "all" 30 none (some "2024-01-01") none = .ok page ∧
          page.images.length < page.total_count) := by
  constructor
  · intro resp cf ft mr nc sd ed page h
    exact (list_ok_spec h).1
  · exact ⟨⟨[⟨"b", some "2024-06-01T00:00:00Z"⟩], 2, none, false⟩,
      by rfl, by decide⟩

/-- C10 witness: the theorem applied to the two-asset response of which the
filter keeps one. -/
theorem total_count_unfiltered_witness :
    list_images_paginated
        (fun _ => .ok ⟨[⟨"a", some "2020-01-01T00:00:00Z"⟩,
          ⟨"b", some "2024-06-01T00:00:00Z"⟩], 2, none⟩)
        "c" "all" 30 none (some "2024-01-01") none =
      .ok ⟨[⟨"b", some "2024-06-01T00:00:00Z"⟩], 2, none, false⟩ ∧
      (⟨[⟨"b", some "2024-06-01T00:00:00Z"⟩], 2, none, false⟩ : PageResult).total_count = 2 :=
  ⟨by rfl,
    total_count_unfiltered.1
      ⟨[⟨"a", some "2020-01-01T00:00:00Z"⟩, ⟨"b", some "2024-06-01T00:00:00Z"⟩], 2, none⟩
      "c" "all" 30 none (some "2024-01-01") none
      ⟨[⟨"b", some "2024-06-01T00:00:00Z"⟩], 2, none, false⟩ (by rfl)⟩

end LSM
